import Mathlib

/-!
Verification of the acquisition-and-transcription pipeline of the
Youtube_transcript repository. The definitions below are shallow embeddings of
the Python functions in src/translator.py, src/transcription.py and
src/youtube_utils.py; external collaborators (the translation backend, the
whisper model, ffmpeg, the caption API, the download strategies) are modelled
as explicit environments so that the control flow of the repository code can be
reasoned about directly.
-/

/-- Characters removed by the Python str.strip method for ASCII input
(space, tab, newline, carriage return, vertical tab, form feed). -/
def isPySpace (c : Char) : Bool :=
  c == ' ' || c == '\t' || c == '\n' || c == '\r' || c == Char.ofNat 11 || c == Char.ofNat 12

/-- List-level model of Python str.strip: drop whitespace from both ends. -/
def stripChars (l : List Char) : List Char :=
  ((l.dropWhile isPySpace).reverse.dropWhile isPySpace).reverse

/-- Model of the Python expression text.strip(). -/
def pyStrip (s : String) : String := String.mk (stripChars s.data)

/-- Auxiliary: the character data of a packed string is the packed list. -/
theorem mk_data (l : List Char) : (String.mk l).data = l := rfl

/-- Auxiliary: the data of a stripped string. -/
theorem pyStrip_data (s : String) : (pyStrip s).data = stripChars s.data := by
  unfold pyStrip
  exact mk_data _

namespace Translator

/-- Keys of the supported_languages dictionary of TranslationService
(src/translator.py lines 9-28). -/
def supported_codes : List String :=
  ["en", "es", "fr", "de", "it", "pt", "ru", "ja", "ko", "zh-cn",
   "hi", "ar", "bn", "ur", "te", "ta", "mr", "gu"]

/-- Membership test modelling the Python check target_lang in self.supported_languages. -/
def isSupported (c : String) : Bool := supported_codes.contains c

/-- The lang_code_map dictionary of TranslationService (src/translator.py lines 30-38). -/
def lang_code_map : List (String × String) :=
  [("zh-cn", "zh-CN"), ("bn", "bn"), ("gu", "gu"), ("mr", "mr"),
   ("te", "te"), ("ta", "ta"), ("ur", "ur")]

/-- Model of self.lang_code_map.get(target_lang, target_lang). -/
def mapCode (c : String) : String :=
  ((lang_code_map.find? (fun p => p.1 == c)).map Prod.snd).getD c

/-- The MAX_CHUNK_LENGTH constant of translate_text (src/translator.py line 77). -/
def MAX_CHUNK_LENGTH : Nat := 4999

/-- Recursion worker for chunkList. The fuel argument only bounds the
recursion depth (each step consumes at least one character, so the length of
the list is enough fuel); it does not influence the result. -/
def chunkGo : Nat → List Char → List (List Char)
  | _, [] => []
  | 0, _ :: _ => []
  | fuel + 1, c :: r =>
    (c :: r).take MAX_CHUNK_LENGTH :: chunkGo fuel ((c :: r).drop MAX_CHUNK_LENGTH)

/-- Model of the Python list comprehension
[text[i:i + MAX_CHUNK_LENGTH] for i in range(0, len(text), MAX_CHUNK_LENGTH)],
working on the character list of the text. -/
def chunkList (l : List Char) : List (List Char) := chunkGo l.length l

/-- Auxiliary: the result of chunkGo does not depend on the fuel, as long as
the fuel is at least the length of the list. -/
theorem chunkGo_fuel : ∀ (fuel fuel2 : Nat) (l : List Char),
    l.length ≤ fuel → l.length ≤ fuel2 → chunkGo fuel l = chunkGo fuel2 l := by
  intro fuel
  induction fuel with
  | zero =>
    intro fuel2 l h1 _h2
    have hl : l = [] := List.eq_nil_of_length_eq_zero (by omega)
    subst hl
    cases fuel2 <;> rfl
  | succ fuel ih =>
    intro fuel2 l h1 h2
    cases l with
    | nil => cases fuel2 <;> rfl
    | cons c r =>
      cases fuel2 with
      | zero => simp at h2
      | succ fuel2 =>
        show (c :: r).take MAX_CHUNK_LENGTH :: chunkGo fuel ((c :: r).drop MAX_CHUNK_LENGTH) =
          (c :: r).take MAX_CHUNK_LENGTH :: chunkGo fuel2 ((c :: r).drop MAX_CHUNK_LENGTH)
        congr 1
        refine ih fuel2 _ ?_ ?_ <;> (simp [List.length_drop, MAX_CHUNK_LENGTH] at h1 h2 ⊢) <;> omega

/-- Induction principle following the recursion structure of chunkList:
to prove a property of all character lists it is enough to prove it for the
empty list and to transfer it from the MAX_CHUNK_LENGTH-dropped tail to a
nonempty list. -/
theorem chunkList_rec (P : List Char → Prop) (h0 : P [])
    (hstep : ∀ l, l ≠ [] → P (List.drop MAX_CHUNK_LENGTH l) → P l) (l : List Char) : P l := by
  have main : ∀ (n : Nat) (l2 : List Char), l2.length ≤ n → P l2 := by
    intro n
    induction n with
    | zero =>
      intro l2 hl
      have h : l2 = [] := List.eq_nil_of_length_eq_zero (by omega)
      rw [h]
      exact h0
    | succ n ih =>
      intro l2 hl
      by_cases h : l2 = []
      · rw [h]; exact h0
      · refine hstep l2 h (ih _ ?_)
        have hp : 0 < l2.length := List.length_pos.mpr h
        simp only [List.length_drop, MAX_CHUNK_LENGTH]
        omega
  exact main l.length l le_rfl

/-- Outcome of a single call translator.translate(text=chunk): the backend
either returns a string, raises a requests network-transport error, or raises
some other exception. -/
inductive BackendResult where
  | ok (s : String)
  | netErr (msg : String)
  | otherErr (msg : String)

/-- A backend environment: the result of the n-th call to
translator.translate, given the chunk passed to it. -/
abbrev Backend := Nat → List Char → BackendResult

/-- How one pass of the inner for-loop over chunks ends. -/
inductive PassOutcome where
  | success
  | netFail (msg : String)
  | otherFail (msg : String)

/-- One pass of the for-loop of translate_text (src/translator.py lines 87-95):
translate each chunk in order, appending results to translated_chunks; an empty
backend result raises ValueError (caught and re-raised as a translation error);
a requests.exceptions.RequestException aborts the pass with a network failure.
Returns the backend call counter, the accumulated translated_chunks list and
the outcome. -/
def runPass (bk : Backend) : List (List Char) → Nat → List String → Nat × List String × PassOutcome
  | [], n, acc => (n, acc, .success)
  | c :: rest, n, acc =>
    match bk n c with
    | .ok s =>
      if s = "" then (n + 1, acc, .otherFail "Translation produced no result")
      else runPass bk rest (n + 1) (acc ++ [s])
    | .netErr m => (n + 1, acc, .netFail m)
    | .otherErr m => (n + 1, acc, .otherFail m)

/-- The while retry_count < max_retries loop of translate_text
(src/translator.py lines 85-105). The fuel argument equals
max_retries - retry_count (so it starts at 3); translated_chunks is NOT reset
between passes. On a network failure the code increments retry_count, raises
once it reaches max_retries, and otherwise sleeps 2 ^ retry_count seconds
(recorded in the slept list). Any other failure raises a translation error
immediately. Falling out of the loop returns the accumulated chunks. -/
def whileLoop (bk : Backend) (chunks : List (List Char)) :
    Nat → Nat → List String → List Nat → Nat × List Nat × Except String (List String)
  | 0, n, _acc, slept => (n, slept, .ok _acc)
  | fuel + 1, n, acc, slept =>
    match runPass bk chunks n acc with
    | (n2, acc2, .success) => (n2, slept, .ok acc2)
    | (n2, _, .otherFail m) => (n2, slept, .error ("Translation error: " ++ m))
    | (n2, acc2, .netFail m) =>
      if fuel = 0 then (n2, slept, .error ("Network error after 3 retries: " ++ m))
      else whileLoop bk chunks fuel n2 acc2 (slept ++ [2 ^ (3 - fuel)])

/-- One invocation of the body of translate_text (src/translator.py lines
45-107), without the outer tenacity decorator: validation, the identity case
for en, chunking, and the retry loop. Returns the backend call counter, the
backoff sleeps performed, and either the joined translation or the raised
error message. -/
def translate_body (bk : Backend) (text target : String) (n : Nat) :
    Nat × List Nat × Except String String :=
  if text = "" then (n, [], .error "Invalid input: text must be a non-empty string")
  else
    let t := pyStrip text
    if t = "" then (n, [], .error "Invalid input: text contains only whitespace")
    else if isSupported target = false then
      (n, [], .error ("Language code not supported: " ++ target))
    else if target = "en" then (n, [], .ok t)
    else
      match whileLoop bk (chunkList t.data) 3 n [] [] with
      | (n2, slept, .ok acc) => (n2, slept, .ok (String.intercalate " " acc))
      | (n2, slept, .error m) => (n2, slept, .error m)

/-- Observable result of one full call of the decorated translate_text:
how many backend calls were made, how many whole-body attempts the tenacity
decorator ran, which backoff sleeps the inner loop performed, and the final
result. -/
structure TransRun where
  calls : Nat
  attempts : Nat
  sleeps : List Nat
  result : Except String String

/-- The tenacity retry decorator on translate_text
(src/translator.py line 44): stop_after_attempt(3) with the default retry
predicate re-runs the whole body on ANY exception, up to 3 attempts in total,
then surfaces the last error. -/
def tenacityLoop (bk : Backend) (text target : String) :
    Nat → Nat → Nat → List Nat → TransRun
  | 0, n, a, slept => ⟨n, a, slept, .error "retry ceiling"⟩
  | fuel + 1, n, a, slept =>
    match translate_body bk text target n with
    | (n2, s2, .ok r) => ⟨n2, a + 1, slept ++ s2, .ok r⟩
    | (n2, s2, .error m) =>
      if fuel = 0 then ⟨n2, a + 1, slept ++ s2, .error m⟩
      else tenacityLoop bk text target fuel n2 (a + 1) (slept ++ s2)

/-- Model of TranslationService.translate_text as invoked by a caller:
the tenacity-decorated body, with at most 3 attempts. -/
def translate_text (bk : Backend) (text target : String) : TransRun :=
  tenacityLoop bk text target 3 0 0 []

/-- Auxiliary: a nonempty character list yields a cons-shaped chunk list. -/
theorem chunkList_cons (l : List Char) (h : l ≠ []) :
    chunkList l = l.take MAX_CHUNK_LENGTH :: chunkList (l.drop MAX_CHUNK_LENGTH) := by
  cases l with
  | nil => exact absurd rfl h
  | cons c r =>
    show (c :: r).take MAX_CHUNK_LENGTH :: chunkGo r.length ((c :: r).drop MAX_CHUNK_LENGTH) = _
    congr 1
    refine chunkGo_fuel r.length _ _ ?_ le_rfl
    simp [List.length_drop, MAX_CHUNK_LENGTH]

/-- Auxiliary: a string differs from the empty string iff its data differs from nil. -/
theorem string_ne_empty_iff (s : String) : s ≠ "" ↔ s.data ≠ [] := by
  constructor
  · intro h hd
    exact h (by cases s with | mk d => cases hd; rfl)
  · intro h hs
    exact h (by cases hs; rfl)

/-- Auxiliary: the retry loop under a backend that always raises a
network-transport error performs all three passes, sleeping 2 then 4 seconds,
and surfaces the network failure. Each pass makes exactly one backend call
(the error happens on the first chunk of the pass). -/
theorem whileLoop_all_net (bk : Backend) (c : List Char) (rest : List (List Char))
    (m : String) (n : Nat) (acc : List String) (slept : List Nat)
    (h0 : bk n c = .netErr m) (h1 : bk (n + 1) c = .netErr m) (h2 : bk (n + 2) c = .netErr m) :
    whileLoop bk (c :: rest) 3 n acc slept =
      (n + 3, slept ++ [2, 4], .error ("Network error after 3 retries: " ++ m)) := by
  simp [whileLoop, runPass, h0, h1, h2]

/-- C2 counterexample: the claim says a non-network error (here the
validation error for empty input) propagates immediately and the operation is
not retried; in the code the tenacity decorator on translate_text retries the
whole call on any exception, so the empty-input call is attempted 3 times
before the validation error surfaces. -/
theorem C2_counterexample :
    (translate_text (fun _ _ => .otherErr "boom") "" "es").attempts = 3 ∧
    (translate_text (fun _ _ => .otherErr "boom") "" "es").result =
      .error "Invalid input: text must be a non-empty string" := by
  exact ⟨rfl, rfl⟩

/-- C2 amended: only network-transport errors are retried by the INNER loop of
translate_text (up to 3 passes with exponential backoff sleeps of 2 and 4
seconds, then surfaced as a translation failure); any other backend error
aborts the pass at once (a single backend call per attempt). However the outer
tenacity decorator re-runs the whole operation on ANY error, so every error is
surfaced only after 3 whole-call attempts rather than immediately: a constant
non-network backend error yields 3 attempts with 3 backend calls in total,
while a constant network error yields 3 attempts of 3 passes each (9 backend
calls) with backoff sleeps 2, 4 inside every attempt. -/
theorem C2_amended (bk : Backend) (text target : String)
    (hsup : isSupported target = true) (hen : target ≠ "en") (hts : pyStrip text ≠ "") :
    ((∀ n c, bk n c = .otherErr "boom") →
      translate_text bk text target = ⟨3, 3, [], .error "Translation error: boom"⟩) ∧
    ((∀ n c, bk n c = .netErr "snap") →
      translate_text bk text target =
        ⟨9, 3, [2, 4, 2, 4, 2, 4], .error "Network error after 3 retries: snap"⟩) := by
  have htext : text ≠ "" := by
    intro h
    apply hts
    rw [h]
    rfl
  have hdata : (pyStrip text).data ≠ [] := (string_ne_empty_iff (pyStrip text)).mp hts
  have hchunks := chunkList_cons (pyStrip text).data hdata
  constructor
  · intro hbk
    have hbody : ∀ n, translate_body bk text target n =
        (n + 1, [], .error "Translation error: boom") := by
      intro n
      simp only [translate_body, if_neg htext, if_neg hts, hsup, if_neg hen]
      simp only [hchunks, whileLoop, runPass, hbk]
      simp
    simp [translate_text, tenacityLoop, hbody]
  · intro hbk
    have hbody : ∀ n, translate_body bk text target n =
        (n + 3, [2, 4], .error "Network error after 3 retries: snap") := by
      intro n
      simp only [translate_body, if_neg htext, if_neg hts, hsup, if_neg hen]
      rw [hchunks, whileLoop_all_net bk _ _ "snap" n [] [] (hbk n _) (hbk (n + 1) _) (hbk (n + 2) _)]
      simp
    simp [translate_text, tenacityLoop, hbody]

/-- Witness for C2 amended: both branches evaluated at a concrete text and
target, with all hypotheses discharged. -/
theorem C2_amended_witness :
    translate_text (fun _ _ => .otherErr "boom") "hello" "es" =
      ⟨3, 3, [], .error "Translation error: boom"⟩ ∧
    translate_text (fun _ _ => .netErr "snap") "hello" "es" =
      ⟨9, 3, [2, 4, 2, 4, 2, 4], .error "Network error after 3 retries: snap"⟩ := by
  refine ⟨?_, ?_⟩
  · exact (C2_amended (fun _ _ => .otherErr "boom") "hello" "es" (by decide) (by decide)
      (by decide)).1 (fun _ _ => rfl)
  · exact (C2_amended (fun _ _ => .netErr "snap") "hello" "es" (by decide) (by decide)
      (by decide)).2 (fun _ _ => rfl)

/-- Auxiliary arithmetic step for ceiling-division counts: removing one block
of size k from a positive m decreases the ceiling of m / k by one. -/
theorem ceil_step (k m : Nat) (hk : 0 < k) (hm : 0 < m) :
    (m + (k - 1)) / k = ((m - k) + (k - 1)) / k + 1 := by
  rcases le_or_lt m k with hle | hlt
  · have h1 : m - k = 0 := by omega
    have h2 : (0 + (k - 1)) / k = 0 := Nat.div_eq_of_lt (by omega)
    have h3 : (m + (k - 1)) / k = 1 := Nat.div_eq_of_lt_le (by omega) (by omega)
    rw [h1, h2, h3]
  · have h3 : m + (k - 1) = ((m - k) + (k - 1)) + k := by omega
    rw [h3, Nat.add_div_right _ hk]

/-- Auxiliary: every chunk produced by chunkList has at most
MAX_CHUNK_LENGTH characters. -/
theorem chunkList_le (l : List Char) : ∀ c ∈ chunkList l, c.length ≤ MAX_CHUNK_LENGTH := by
  induction l using chunkList_rec with
  | h0 => intro c hc; simp [chunkList, chunkGo] at hc
  | hstep l h ih =>
    intro c hc
    rw [chunkList_cons l h] at hc
    rcases List.mem_cons.mp hc with hc | hc
    · rw [hc]; exact List.length_take_le _ _
    · exact ih c hc

/-- Auxiliary: the chunks concatenate back to the original character list
(the split is on plain character boundaries, without loss). -/
theorem chunkList_flatten (l : List Char) : (chunkList l).flatten = l := by
  induction l using chunkList_rec with
  | h0 => simp [chunkList, chunkGo]
  | hstep l h ih =>
    rw [chunkList_cons l h]
    simp [ih]

/-- Auxiliary: the number of chunks is the ceiling of the character count
divided by MAX_CHUNK_LENGTH. -/
theorem chunkList_length (l : List Char) :
    (chunkList l).length = (l.length + (MAX_CHUNK_LENGTH - 1)) / MAX_CHUNK_LENGTH := by
  induction l using chunkList_rec with
  | h0 => simp [chunkList, chunkGo, MAX_CHUNK_LENGTH]
  | hstep l h ih =>
    rw [chunkList_cons l h]
    have hpos : 0 < l.length := List.length_pos.mpr h
    simp only [List.length_cons, ih, List.length_drop]
    rw [ceil_step MAX_CHUNK_LENGTH l.length (by decide) hpos]

/-- Auxiliary: under a backend that answers every call with a nonempty
translation, one pass translates the chunks in order, call i serving chunk i,
and appends the results to the accumulator. -/
theorem runPass_allOk (bk : Backend) (g : Nat → List Char → String)
    (hbk : ∀ n c, bk n c = .ok (g n c)) (hg : ∀ n c, g n c ≠ "") :
    ∀ (chunks : List (List Char)) (n : Nat) (acc : List String),
      runPass bk chunks n acc =
        (n + chunks.length,
         acc ++ (List.enumFrom n chunks).map (fun ic => g ic.1 ic.2),
         .success) := by
  intro chunks
  induction chunks with
  | nil => intro n acc; simp [runPass]
  | cons c rest ih =>
    intro n acc
    simp only [runPass, hbk n c, if_neg (hg n c), ih (n + 1), List.enumFrom, List.map_cons,
      List.length_cons, Prod.mk.injEq, List.append_assoc, List.singleton_append,
      and_true, true_and]
    try omega

/-- C7: the translated_chunks list of translate_text is declared before the
retry loop and is not reset between passes; if the first pass translates some
chunks (list p, nonempty) and then hits a network-transport error, and the
retry pass then completes successfully having appended the full set f, the
call returns the join of p followed by f: the partial results of the failed
pass are retained in the output. -/
theorem C7_partials_retained (bk : Backend) (text target : String) (m : String)
    (hsup : isSupported target = true) (hen : target ≠ "en") (hts : pyStrip text ≠ "")
    (p f : List String) (n1 n2 : Nat)
    (h1 : runPass bk (chunkList (pyStrip text).data) 0 [] = (n1, p, .netFail m))
    (_hp : p ≠ [])
    (h2 : runPass bk (chunkList (pyStrip text).data) n1 p = (n2, p ++ f, .success)) :
    (translate_text bk text target).result =
      .ok (String.intercalate " " (p ++ f)) := by
  have htext : text ≠ "" := by
    intro h
    apply hts
    rw [h]
    rfl
  have hbody : translate_body bk text target 0 =
      (n2, [2], .ok (String.intercalate " " (p ++ f))) := by
    simp only [translate_body, if_neg htext, if_neg hts, hsup, if_neg hen]
    simp only [whileLoop, h1]
    norm_num
    simp only [whileLoop, h2]
  simp [translate_text, tenacityLoop, hbody]

/-- Witness input for C7: 5000 identical characters, which translate_text
splits into a 4999-character chunk and a 1-character chunk. -/
def c7text : String := String.mk (List.replicate 5000 'a')

/-- Witness backend for C7: the first pass translates chunk 0 to P1 and then
raises a network error on chunk 1; the retry pass translates both chunks. -/
def c7bk : Backend := fun n _ =>
  if n = 0 then .ok "P1"
  else if n = 1 then .netErr "snap"
  else if n = 2 then .ok "F1"
  else .ok "F2"

/-- Auxiliary: stripping the witness text changes nothing (no whitespace). -/
theorem c7strip : (pyStrip c7text).data = List.replicate 5000 'a' := by
  have hdw : List.dropWhile isPySpace (List.replicate 5000 'a') = List.replicate 5000 'a' := rfl
  have h1 : c7text.data = List.replicate 5000 'a' := by
    unfold c7text
    exact mk_data _
  rw [pyStrip_data, h1]
  unfold stripChars
  rw [hdw, List.reverse_replicate, hdw, List.reverse_replicate]

/-- Auxiliary: the witness text splits into a 4999-character chunk and a
single-character chunk. -/
theorem c7chunks :
    chunkList (List.replicate 5000 'a') = [List.replicate 4999 'a', ['a']] := by
  have hne1 : List.replicate 5000 'a' ≠ [] :=
    List.ne_nil_of_length_pos (by rw [List.length_replicate]; decide)
  have hne2 : List.replicate 1 'a' ≠ [] :=
    List.ne_nil_of_length_pos (by rw [List.length_replicate]; decide)
  have h1 := chunkList_cons _ hne1
  have h2 := chunkList_cons _ hne2
  rw [List.take_replicate, List.drop_replicate] at h1
  rw [List.take_replicate, List.drop_replicate] at h2
  rw [show min MAX_CHUNK_LENGTH 5000 = 4999 from rfl] at h1
  rw [show (5000 - MAX_CHUNK_LENGTH : Nat) = 1 from rfl] at h1
  rw [show min MAX_CHUNK_LENGTH 1 = 1 from rfl] at h2
  rw [show (1 - MAX_CHUNK_LENGTH : Nat) = 0 from rfl] at h2
  rw [h1, h2]
  rfl

/-- Witness for C7: at the concrete two-chunk input the returned text is the
retained partial P1 followed by the full retry results F1 F2. -/
theorem C7_witness :
    (translate_text c7bk c7text "es").result = .ok (String.intercalate " " (["P1"] ++ ["F1", "F2"])) := by
  refine C7_partials_retained c7bk c7text "es" "snap" (by decide) (by decide) ?_
    ["P1"] ["F1", "F2"] 2 4 ?_ (by decide) ?_
  · rw [string_ne_empty_iff, c7strip]
    exact List.ne_nil_of_length_pos (by rw [List.length_replicate]; decide)
  · rw [c7strip, c7chunks]
    rfl
  · rw [c7strip, c7chunks]
    rfl

/-- C9: for a trimmed nonempty input and a supported target other than en,
translate_text splits the text into chunks of at most 4999 characters on plain
character boundaries (their concatenation is the original text, and a
12000-character input yields exactly 3 chunks), translates the chunks in order
(backend call i serves chunk i), and returns the per-chunk translations joined
with a single space. -/
theorem C9_chunks_in_order (bk : Backend) (g : Nat → List Char → String) (text target : String)
    (hsup : isSupported target = true) (hen : target ≠ "en")
    (hstrip : pyStrip text = text) (hne : text ≠ "")
    (hbk : ∀ n c, bk n c = .ok (g n c)) (hg : ∀ n c, g n c ≠ "") :
    (∀ c ∈ chunkList text.data, c.length ≤ MAX_CHUNK_LENGTH) ∧
    (chunkList text.data).flatten = text.data ∧
    (chunkList text.data).length = (text.data.length + (MAX_CHUNK_LENGTH - 1)) / MAX_CHUNK_LENGTH ∧
    (chunkList (List.replicate 12000 'a')).length = 3 ∧
    (translate_text bk text target).result =
      .ok (String.intercalate " "
        ((List.enumFrom 0 (chunkList text.data)).map (fun ic => g ic.1 ic.2))) := by
  have hts : pyStrip text ≠ "" := by rw [hstrip]; exact hne
  refine ⟨chunkList_le _, chunkList_flatten _, chunkList_length _, ?_, ?_⟩
  · rw [chunkList_length, List.length_replicate]
    rfl
  · have hbody : translate_body bk text target 0 =
        (0 + (chunkList text.data).length, [],
         .ok (String.intercalate " "
           ((List.enumFrom 0 (chunkList text.data)).map (fun ic => g ic.1 ic.2)))) := by
      simp only [translate_body, if_neg hne, if_neg hts, hsup, if_neg hen, hstrip]
      simp only [whileLoop, runPass_allOk bk g hbk hg (chunkList text.data) 0 []]
      simp
    simp [translate_text, tenacityLoop, hbody]

/-- Witness for C9: the two-character text hi with a constant backend: one
chunk, joined output equal to its single translation. -/
theorem C9_witness :
    (∀ c ∈ chunkList ("hi" : String).data, c.length ≤ MAX_CHUNK_LENGTH) ∧
    (chunkList ("hi" : String).data).flatten = ("hi" : String).data ∧
    (chunkList ("hi" : String).data).length =
      (("hi" : String).data.length + (MAX_CHUNK_LENGTH - 1)) / MAX_CHUNK_LENGTH ∧
    (chunkList (List.replicate 12000 'a')).length = 3 ∧
    (translate_text (fun _ _ => .ok "T") "hi" "es").result =
      .ok (String.intercalate " "
        ((List.enumFrom 0 (chunkList ("hi" : String).data)).map
          (fun ic => (fun (_ : Nat) (_ : List Char) => "T") ic.1 ic.2))) :=
  C9_chunks_in_order (fun _ _ => .ok "T") (fun _ _ => "T") "hi" "es" (by decide) (by decide)
    (by decide) (by decide) (fun _ _ => rfl) (fun _ _ => (by decide : ("T" : String) ≠ ""))

end Translator

namespace Transcription

/-- The chunk threshold self.chunk_size = 120 seconds of TranscriptionService
(src/transcription.py line 55). -/
def chunk_size : Nat := 120

/-- Recursion worker for pyRange. The fuel only bounds the recursion depth
(each iteration advances start by chunk_size ≥ 1, so stop - start is enough
fuel); it does not influence the result. -/
def pyRangeGo : Nat → Nat → Nat → List Nat
  | 0, _, _ => []
  | fuel + 1, start, stop =>
    if start < stop then start :: pyRangeGo fuel (start + chunk_size) stop else []

/-- Model of the Python expression range(0, int(duration), self.chunk_size)
used by transcribe_audio (src/transcription.py line 260), generalized to an
arbitrary start. -/
def pyRange (start stop : Nat) : List Nat := pyRangeGo (stop - start) start stop

/-- Model of the chunk list built by transcribe_audio
(src/transcription.py lines 259-262): for each start produced by pyRange,
the pair of the start time and the duration end - start with
end = min(start + chunk_size, duration). -/
def makeChunks (d : Nat) : List (Nat × Nat) :=
  (pyRange 0 d).map (fun s => (s, min (s + chunk_size) d - s))

/-- Auxiliary: the result of pyRangeGo does not depend on the fuel as long as
the fuel is at least stop - start. -/
theorem pyRangeGo_fuel : ∀ (fuel1 fuel2 start stop : Nat),
    stop - start ≤ fuel1 → stop - start ≤ fuel2 →
    pyRangeGo fuel1 start stop = pyRangeGo fuel2 start stop := by
  intro fuel1
  induction fuel1 with
  | zero =>
    intro fuel2 start stop h1 _h2
    have hns : ¬ start < stop := by omega
    cases fuel2 with
    | zero => rfl
    | succ fuel2 => simp [pyRangeGo, hns]
  | succ fuel1 ih =>
    intro fuel2 start stop h1 h2
    by_cases hlt : start < stop
    · cases fuel2 with
      | zero => omega
      | succ fuel2 =>
        simp only [pyRangeGo, if_pos hlt]
        congr 1
        refine ih fuel2 (start + chunk_size) stop ?_ ?_ <;> simp [chunk_size] <;> omega
    · cases fuel2 with
      | zero => simp [pyRangeGo, hlt]
      | succ fuel2 => simp [pyRangeGo, hlt]

/-- Auxiliary: pyRange on an empty interval is empty. -/
theorem pyRange_nil (start stop : Nat) (h : stop ≤ start) : pyRange start stop = [] := by
  have h0 : stop - start = 0 := by omega
  rw [pyRange, h0]
  rfl

/-- Auxiliary: one unfolding step of pyRange on a nonempty interval. -/
theorem pyRange_cons (start stop : Nat) (h : start < stop) :
    pyRange start stop = start :: pyRange (start + chunk_size) stop := by
  obtain ⟨k, hk⟩ : ∃ k, stop - start = k + 1 := ⟨stop - start - 1, by omega⟩
  rw [pyRange, hk]
  simp only [pyRangeGo, if_pos h]
  congr 1
  refine pyRangeGo_fuel k _ (start + chunk_size) stop ?_ le_rfl
  simp [chunk_size]
  omega

/-- Auxiliary: pyRange start stop is an arithmetic progression of step
chunk_size whose length is the ceiling of (stop - start) / chunk_size. -/
theorem pyRange_eq : ∀ (n start stop : Nat), stop - start ≤ n →
    pyRange start stop =
      List.range' start ((stop - start + (chunk_size - 1)) / chunk_size) chunk_size := by
  intro n
  induction n with
  | zero =>
    intro start stop h
    rw [pyRange_nil start stop (by omega), show stop - start = 0 from by omega]
    rfl
  | succ n ih =>
    intro start stop h
    by_cases hlt : start < stop
    · have hm : 0 < stop - start := by omega
      have hstep : stop - (start + chunk_size) = stop - start - chunk_size := by omega
      rw [pyRange_cons start stop hlt, ih (start + chunk_size) stop (by simp [chunk_size]; omega),
        hstep, Translator.ceil_step chunk_size (stop - start) (by decide) hm]
      rfl
    · rw [pyRange_nil start stop (by omega), show stop - start = 0 from by omega]
      rfl

/-- Environment for the model-transcription step: whether the ffmpeg split of
the chunk starting at a given second succeeds, the result of transcribing that
chunk with the whisper model (which may raise), and the result of transcribing
the whole artifact in the single-pass branch. -/
structure SegEnv where
  splitOk : Nat → Bool
  segRes : Nat → Except String String
  whole : Except String String

/-- Model of TranscriptionService._transcribe_chunk
(src/transcription.py lines 212-239): if the split fails, return the
placeholder naming the start time; if the transcription raises, return the
transcription placeholder with the error text; otherwise return the chunk
transcript. The worker catches every exception and always returns a string. -/
def transcribe_chunk (env : SegEnv) (start _dur : Nat) : String :=
  if env.splitOk start = false then "Error creating chunk at " ++ toString start
  else
    match env.segRes start with
    | .ok t => t
    | .error m => "Error transcribing chunk: " ++ m

/-- Model of TranscriptionService.transcribe_audio
(src/transcription.py lines 241-293). The artifact is a pair
(fileExists, fileSize); ord is the order in which as_completed yields the
completed futures (a permutation of the chunk indices); the second component
of the result counts the calls to the ffmpeg splitter (one per submitted
chunk, zero on the single-pass branch). The missing-file and empty-file checks
raise; the single-pass branch transcribes the whole artifact; the chunked
branch joins the worker results in completion order with single spaces. -/
def transcribe_audio (env : SegEnv) (fileExists : Bool) (fileSize d : Nat) (ord : List Nat) :
    Except String String × Nat :=
  if fileExists = false then (.error "Error transcribing audio: Audio file not found", 0)
  else if fileSize = 0 then (.error "Error transcribing audio: Audio file is empty", 0)
  else if d ≤ chunk_size then
    (match env.whole with
     | .ok t => .ok t
     | .error m => .error ("Error transcribing audio: " ++ m), 0)
  else
    (.ok (String.intercalate " " (ord.map (fun i =>
       transcribe_chunk env ((makeChunks d).getD i (0, 0)).1 ((makeChunks d).getD i (0, 0)).2))),
     (makeChunks d).length)

/-- Environment for C1: both chunks split fine, the chunk at 0 transcribes to
A and every other chunk to B. -/
def c1env : SegEnv :=
  ⟨fun _ => true, fun s => if s = 0 then .ok "A" else .ok "B", .ok "W"⟩

/-- C1: evaluation of the code at the failing input. For a 240-second
artifact with two segments transcribing to A and B, the completion order
second-then-first (a legitimate completion order of the worker pool) makes
transcribe_audio return B A, while the space-join of the segment texts in
ascending start-time order is A B: the join step appends on completion
(as_completed) instead of ordering by segment start. -/
theorem C1_completion_order :
    List.Perm [1, 0] (List.range 2) ∧
    transcribe_audio c1env true 1 240 [1, 0] = (.ok "B A", 2) ∧
    String.intercalate " "
      ((makeChunks 240).map (fun c => transcribe_chunk c1env c.1 c.2)) = "A B" ∧
    ("B A" : String) ≠ "A B" := by
  exact ⟨by decide, rfl, rfl, by decide⟩

/-- One acquisition attempt of download_audio as seen by the loop: whether
the method raised (and with which message), the duration field of the
extracted info when the method reports one (yt-dlp defaults to 600 when the
field is missing; the requests fallback always reports 600), and the state of
the target file after the attempt. -/
structure AttemptSpec where
  raisesMsg : Option String
  durationField : Option Nat
  fileExists : Bool
  fileSize : Nat

/-- The proxy-rotation double loop of download_audio
(src/transcription.py lines 180-202): up to 3 proxies times 2 download
methods, so 6 attempts. A raising attempt records the last error and moves
on; a returning attempt is accepted as soon as the file exists (the size is
NOT examined); after the loop the recorded error is re-raised, or a
missing-file error is raised. Errors are wrapped in the download error
message (lines 204-210). -/
def download_loop (env : Nat → AttemptSpec) : Nat → Nat → Option String → Except String (Nat × Nat)
  | 0, _i, lastErr =>
    match lastErr with
    | some m => .error ("Error downloading audio: " ++ m)
    | none => .error "Error downloading audio: Downloaded audio file not found"
  | fuel + 1, i, lastErr =>
    match (env i).raisesMsg with
    | some m => download_loop env fuel (i + 1) (some m)
    | none =>
      if (env i).fileExists then .ok ((env i).durationField.getD 600, (env i).fileSize)
      else download_loop env fuel (i + 1) lastErr

/-- Model of TranscriptionService.download_audio: run the 6 attempts and
return the duration and the size of the accepted artifact. -/
def download_audio (env : Nat → AttemptSpec) : Except String (Nat × Nat) :=
  download_loop env 6 0 none

/-- C3 counterexample: an acquisition strategy that reports success while the
file on disk exists but is empty (size 0) is accepted: download_audio returns
successfully with a zero-byte artifact, because the loop checks only
os.path.exists and never the file size. The claim that the returned artifact
is non-empty is therefore false. -/
theorem C3_counterexample :
    download_audio (fun _ => ⟨none, some 600, true, 0⟩) = .ok (600, 0) := rfl

/-- Auxiliary: any successful run of the download loop is produced by some
attempt in range whose method did not raise, whose file exists, and whose
reported duration (with the 600 default) and file size are returned. -/
theorem download_loop_ok (env : Nat → AttemptSpec) :
    ∀ (fuel i : Nat) (le : Option String) (d sz : Nat),
      download_loop env fuel i le = .ok (d, sz) →
      ∃ j, i ≤ j ∧ j < i + fuel ∧ (env j).raisesMsg = none ∧ (env j).fileExists = true ∧
        d = (env j).durationField.getD 600 ∧ sz = (env j).fileSize := by
  intro fuel
  induction fuel with
  | zero =>
    intro i le d sz h
    cases le <;> simp [download_loop] at h
  | succ fuel ih =>
    intro i le d sz h
    cases hr : (env i).raisesMsg with
    | some m =>
      rw [download_loop, hr] at h
      obtain ⟨j, hj1, hj2, rest⟩ := ih (i + 1) (some m) d sz h
      exact ⟨j, by omega, by omega, rest⟩
    | none =>
      rw [download_loop, hr] at h
      by_cases hex : (env i).fileExists
      · rw [if_pos hex] at h
        have hd : d = (env i).durationField.getD 600 ∧ sz = (env i).fileSize := by
          have := h
          simp at this
          exact ⟨this.1.symm, this.2.symm⟩
        exact ⟨i, le_rfl, by omega, hr, hex, hd.1, hd.2⟩
      · rw [if_neg hex] at h
        obtain ⟨j, hj1, hj2, rest⟩ := ih (i + 1) le d sz h
        exact ⟨j, by omega, by omega, rest⟩

/-- C3 amended: whenever download_audio returns successfully, the returned
artifact file exists (existence is checked, but non-emptiness is not: the
size may be zero) and the returned duration is the one reported by the
successful acquisition attempt, with 600 seconds substituted when the
strategy cannot report a duration. -/
theorem C3_duration_exists (env : Nat → AttemptSpec) (d sz : Nat)
    (h : download_audio env = .ok (d, sz)) :
    ∃ j, j < 6 ∧ (env j).raisesMsg = none ∧ (env j).fileExists = true ∧
      d = (env j).durationField.getD 600 ∧ sz = (env j).fileSize := by
  obtain ⟨j, _h0, hj, rest⟩ := download_loop_ok env 6 0 none d sz h
  exact ⟨j, by omega, rest⟩

/-- Witness environment for C3: every attempt succeeds with an existing
5-byte file and no reported duration. -/
def c3env : Nat → AttemptSpec := fun _ => ⟨none, none, true, 5⟩

/-- Witness for C3 amended: the concrete run returns duration 600 (the
default, as no attempt reports a duration) and the attempt that produced it
is exhibited. -/
theorem C3_witness :
    ∃ j, j < 6 ∧ (c3env j).raisesMsg = none ∧ (c3env j).fileExists = true ∧
      600 = (c3env j).durationField.getD 600 ∧ 5 = (c3env j).fileSize :=
  C3_duration_exists c3env 600 5 rfl

/-- Auxiliary: number of chunks built for duration d, as a ceiling division. -/
theorem makeChunks_length (d : Nat) :
    (makeChunks d).length = (d + (chunk_size - 1)) / chunk_size := by
  have h := pyRange_eq d 0 d (by omega)
  rw [Nat.sub_zero] at h
  rw [makeChunks, List.length_map, h, List.length_range']

/-- Auxiliary: the i-th chunk starts at chunk_size * i and ends at
min (chunk_size * (i + 1)) d. -/
theorem makeChunks_get (d : Nat) : ∀ i, i < (makeChunks d).length →
    (makeChunks d).getD i (0, 0) =
      (chunk_size * i, min (chunk_size * i + chunk_size) d - chunk_size * i) := by
  intro i hi
  have hrange : pyRange 0 d = List.range' 0 ((d + (chunk_size - 1)) / chunk_size) chunk_size := by
    have h := pyRange_eq d 0 d (by omega)
    rwa [Nat.sub_zero] at h
  rw [List.getD_eq_getElem _ _ hi]
  simp only [makeChunks, List.getElem_map]
  rw [List.getElem_of_eq hrange, List.getElem_range']
  simp

/-- C6: with a valid artifact, a duration of at most 120 seconds takes the
single-pass branch of transcribe_audio: zero calls to the audio splitter and
the whole-artifact transcription as result. A duration above 120 seconds is
partitioned into exactly ceil(d / 120) consecutive windows: window i is
[120 i, min (120 (i + 1)) d), every window except possibly the last has width
exactly 120, consecutive windows are adjacent, and the last window ends at d,
so the windows cover [0, d) without gaps or overlaps; the splitter is invoked
once per window. -/
theorem C6_partition (env : SegEnv) (fs d : Nat) (ord : List Nat) (hfs : 0 < fs) :
    (d ≤ chunk_size →
      (transcribe_audio env true fs d ord).2 = 0 ∧
      ∀ t, env.whole = .ok t → (transcribe_audio env true fs d ord).1 = .ok t) ∧
    (chunk_size < d →
      (transcribe_audio env true fs d ord).2 = (makeChunks d).length ∧
      (makeChunks d).length = (d + (chunk_size - 1)) / chunk_size ∧
      (∀ i, i < (makeChunks d).length →
        (makeChunks d).getD i (0, 0) =
          (chunk_size * i, min (chunk_size * i + chunk_size) d - chunk_size * i)) ∧
      (∀ i, i + 1 < (makeChunks d).length → ((makeChunks d).getD i (0, 0)).2 = chunk_size) ∧
      (∀ i, i < (makeChunks d).length →
        ((makeChunks d).getD i (0, 0)).1 + ((makeChunks d).getD i (0, 0)).2 =
          min (chunk_size * (i + 1)) d) ∧
      ((makeChunks d).getD ((makeChunks d).length - 1) (0, 0)).1 +
        ((makeChunks d).getD ((makeChunks d).length - 1) (0, 0)).2 = d) := by
  have hfs0 : fs ≠ 0 := by omega
  constructor
  · intro hd
    constructor
    · simp [transcribe_audio, hfs0, hd]
    · intro t ht
      simp [transcribe_audio, hfs0, hd, ht]
  · intro hd
    have hnd : ¬ d ≤ chunk_size := by omega
    have hlen := makeChunks_length d
    have hget := makeChunks_get d
    have hmod := Nat.div_add_mod (d + (chunk_size - 1)) chunk_size
    have hr : (d + (chunk_size - 1)) % chunk_size < chunk_size := Nat.mod_lt _ (by decide)
    refine ⟨by simp [transcribe_audio, hfs0, hnd], hlen, hget, ?_, ?_, ?_⟩
    · intro i hi
      rw [hget i (by omega)]
      rw [hlen] at hi
      simp only [chunk_size] at hmod hr hi hd ⊢
      omega
    · intro i hi
      rw [hget i hi]
      rw [hlen] at hi
      simp only [chunk_size] at hmod hr hi hd ⊢
      omega
    · have hpos : 0 < (makeChunks d).length := by
        rw [hlen]
        simp only [chunk_size] at hmod hr hd ⊢
        omega
      rw [hget ((makeChunks d).length - 1) (by omega)]
      rw [hlen] at hpos ⊢
      simp only [chunk_size] at hmod hr hd hpos ⊢
      omega

/-- Witness environment for C6: every split succeeds and every chunk
transcribes. -/
def c6env : SegEnv := ⟨fun _ => true, fun _ => .ok "x", .ok "W"⟩

/-- Witness for C6: the partition facts instantiated at duration 240 with a
valid 1-byte artifact. -/
theorem C6_witness :
    (0 : Nat) < 1 ∧
    ((240 ≤ chunk_size →
      (transcribe_audio c6env true 1 240 [0, 1]).2 = 0 ∧
      ∀ t, c6env.whole = .ok t → (transcribe_audio c6env true 1 240 [0, 1]).1 = .ok t) ∧
    (chunk_size < 240 →
      (transcribe_audio c6env true 1 240 [0, 1]).2 = (makeChunks 240).length ∧
      (makeChunks 240).length = (240 + (chunk_size - 1)) / chunk_size ∧
      (∀ i, i < (makeChunks 240).length →
        (makeChunks 240).getD i (0, 0) =
          (chunk_size * i, min (chunk_size * i + chunk_size) 240 - chunk_size * i)) ∧
      (∀ i, i + 1 < (makeChunks 240).length → ((makeChunks 240).getD i (0, 0)).2 = chunk_size) ∧
      (∀ i, i < (makeChunks 240).length →
        ((makeChunks 240).getD i (0, 0)).1 + ((makeChunks 240).getD i (0, 0)).2 =
          min (chunk_size * (i + 1)) 240) ∧
      ((makeChunks 240).getD ((makeChunks 240).length - 1) (0, 0)).1 +
        ((makeChunks 240).getD ((makeChunks 240).length - 1) (0, 0)).2 = 240)) :=
  ⟨by decide, C6_partition c6env 1 240 [0, 1] (by decide)⟩

/-- C8: with a valid artifact and a chunked duration, the overall
transcribe_audio call returns text successfully for EVERY worker environment,
including those in which splitting or transcription of some segments fails:
the result is the join of the per-segment worker outputs (the worker function
is total, it never raises), a segment whose ffmpeg split fails contributes
the placeholder naming its start time in its slot, and a segment whose model
transcription raises contributes the transcription placeholder with the error
text in its slot. -/
theorem C8_graceful (env : SegEnv) (fs d : Nat) (ord : List Nat) (hfs : 0 < fs)
    (hd : chunk_size < d) (hord : ∀ i ∈ ord, i < (makeChunks d).length) :
    ((transcribe_audio env true fs d ord).1 =
      .ok (String.intercalate " " (ord.map (fun i =>
        transcribe_chunk env (chunk_size * i) (((makeChunks d).getD i (0, 0)).2))))) ∧
    (∀ i ∈ ord, env.splitOk (chunk_size * i) = false →
      transcribe_chunk env (chunk_size * i) (((makeChunks d).getD i (0, 0)).2) =
        "Error creating chunk at " ++ toString (chunk_size * i)) ∧
    (∀ i ∈ ord, ∀ m, env.splitOk (chunk_size * i) = true →
      env.segRes (chunk_size * i) = .error m →
      transcribe_chunk env (chunk_size * i) (((makeChunks d).getD i (0, 0)).2) =
        "Error transcribing chunk: " ++ m) := by
  have hfs0 : fs ≠ 0 := by omega
  have hnd : ¬ d ≤ chunk_size := by omega
  refine ⟨?_, ?_, ?_⟩
  · have hdef : (transcribe_audio env true fs d ord).1 =
        .ok (String.intercalate " " (ord.map (fun i =>
          transcribe_chunk env ((makeChunks d).getD i (0, 0)).1 ((makeChunks d).getD i (0, 0)).2))) := by
      simp [transcribe_audio, hfs0, hnd]
    rw [hdef]
    have hmap : ord.map (fun i =>
        transcribe_chunk env ((makeChunks d).getD i (0, 0)).1 ((makeChunks d).getD i (0, 0)).2) =
      ord.map (fun i =>
        transcribe_chunk env (chunk_size * i) (((makeChunks d).getD i (0, 0)).2)) := by
      refine List.map_congr_left ?_
      intro i hi
      have h1 : ((makeChunks d).getD i (0, 0)).1 = chunk_size * i := by
        rw [makeChunks_get d i (hord i hi)]
      rw [h1]
    rw [hmap]
  · intro i _hi hsplit
    simp [transcribe_chunk, hsplit]
  · intro i _hi m hsplit hseg
    simp [transcribe_chunk, hsplit, hseg]

/-- Witness environment for C8: the split of the chunk at second 0 fails, the
transcription of the chunk at second 120 raises, everything else succeeds. -/
def c8env : SegEnv :=
  ⟨fun s => !(s == 0), fun s => if s = 120 then .error "boom" else .ok "ok", .ok "W"⟩

/-- Witness for C8: concrete run at duration 240 with completion order
[0, 1]: the call still succeeds and both placeholders appear. -/
theorem C8_witness :
    (0 : Nat) < 1 ∧ chunk_size < 240 ∧ (∀ i ∈ [0, 1], i < (makeChunks 240).length) ∧
    (((transcribe_audio c8env true 1 240 [0, 1]).1 =
      .ok (String.intercalate " " (([0, 1] : List Nat).map (fun i =>
        transcribe_chunk c8env (chunk_size * i) (((makeChunks 240).getD i (0, 0)).2))))) ∧
    (∀ i ∈ ([0, 1] : List Nat), c8env.splitOk (chunk_size * i) = false →
      transcribe_chunk c8env (chunk_size * i) (((makeChunks 240).getD i (0, 0)).2) =
        "Error creating chunk at " ++ toString (chunk_size * i)) ∧
    (∀ i ∈ ([0, 1] : List Nat), ∀ m, c8env.splitOk (chunk_size * i) = true →
      c8env.segRes (chunk_size * i) = .error m →
      transcribe_chunk c8env (chunk_size * i) (((makeChunks 240).getD i (0, 0)).2) =
        "Error transcribing chunk: " ++ m)) :=
  ⟨by decide, by decide, by decide,
    C8_graceful c8env 1 240 [0, 1] (by decide) (by decide) (by decide)⟩

end Transcription

namespace Yt

/-- A caption track as listed by the youtube_transcript_api collaborator:
its language code, whether it is auto-generated, and the texts of its
entries. -/
structure CaptionTrack where
  language_code : String
  is_generated : Bool
  entries : List String

/-- The track list returned by YouTubeTranscriptApi.list_transcripts. -/
structure TranscriptListT where
  tracks : List CaptionTrack

/-- Library lookup of a track with the given generated-flag and language. -/
def findTrack (tl : TranscriptListT) (gen : Bool) (lc : String) : Option CaptionTrack :=
  tl.tracks.find? (fun t => t.is_generated == gen && t.language_code == lc)

/-- Library find_manually_created_transcript(language_codes): first language
in the list with a manually created track. -/
def find_manually_created_transcript (tl : TranscriptListT) (langs : List String) :
    Option CaptionTrack :=
  langs.findSome? (fun lc => findTrack tl false lc)

/-- Library find_generated_transcript(language_codes): first language in the
list with an auto-generated track. -/
def find_generated_transcript (tl : TranscriptListT) (langs : List String) :
    Option CaptionTrack :=
  langs.findSome? (fun lc => findTrack tl true lc)

/-- Library find_transcript(language_codes): for each language in order,
a manually created track is preferred over a generated one. -/
def find_transcript (tl : TranscriptListT) (langs : List String) : Option CaptionTrack :=
  langs.findSome? (fun lc =>
    match findTrack tl false lc with
    | some t => some t
    | none => findTrack tl true lc)

/-- The third attempt of the fallback chain in get_youtube_transcript
(src/youtube_utils.py line 118) calls find_manually_created_transcript()
without its required language_codes argument; in Python this raises TypeError
before any lookup happens, and the bare except swallows it, so this step can
never yield a track. -/
def find_manually_created_no_args : Option CaptionTrack := none

/-- The nested try/except selection chain of get_youtube_transcript
(src/youtube_utils.py lines 108-124): manual English, then find_transcript
for English, then the broken no-argument call, then generated English; if all
fail the function reports no transcript (None). -/
def selectTranscript (tl : TranscriptListT) : Option CaptionTrack :=
  match find_manually_created_transcript tl ["en"] with
  | some t => some t
  | none =>
    match find_transcript tl ["en"] with
    | some t => some t
    | none =>
      match find_manually_created_no_args with
      | some t => some t
      | none => find_generated_transcript tl ["en"]

/-- The terminal punctuation set of the entry normalization
(src/youtube_utils.py line 134). -/
def terminalPunct (c : Char) : Bool := c == '.' || c == '!' || c == '?'

/-- Normalization of one caption entry (src/youtube_utils.py lines 131-136):
strip the text and append a period when the stripped text is nonempty and its
last character is not terminal punctuation. -/
def normalizeEntry (t : String) : String :=
  let s := pyStrip t
  match s.data.getLast? with
  | some c => if terminalPunct c then s else s ++ "."
  | none => s

/-- Model of get_youtube_transcript (src/youtube_utils.py lines 102-141):
the input is none when list_transcripts raises (the outer except returns
None); otherwise the selection chain runs and a found track has its entries
normalized and joined with single spaces. -/
def get_youtube_transcript (inp : Option TranscriptListT) : Option String :=
  match inp with
  | none => none
  | some tl =>
    match selectTranscript tl with
    | none => none
    | some tr => some (String.intercalate " " (tr.entries.map normalizeEntry))

/-- Modelled from the claim wording of C10, for comparison with the code:
append a period exactly when the trimmed text does not already end in
terminal punctuation (so also when the trimmed text is empty). -/
def normalizeEntryClaim (t : String) : String :=
  let s := pyStrip t
  if (match s.data.getLast? with | some c => terminalPunct c | none => false) = true then s
  else s ++ "."

/-- Track list for C4: a single manually created French track. -/
def c4list : TranscriptListT := ⟨[⟨"fr", false, ["bonjour"]⟩]⟩

/-- C4: evaluation of the code at the failing input. The available caption
set contains a manually created (non-generated) track in French, which the
claimed preference order (third preference: any manually created track in any
language) would select; the code instead reports no captions, because its
third attempt calls find_manually_created_transcript with no argument (a
TypeError, swallowed) and its fourth attempt asks only for GENERATED English
tracks. -/
theorem C4_preference_chain :
    (∃ t ∈ c4list.tracks, t.is_generated = false) ∧
    get_youtube_transcript (some c4list) = none := by
  refine ⟨⟨⟨"fr", false, ["bonjour"]⟩, ?_, rfl⟩, rfl⟩
  simp [c4list]

/-- Track list for the C10 counterexample: an entry consisting only of a
space sits between hello and world. -/
def c10list : TranscriptListT := ⟨[⟨"en", false, ["hello", " ", "world"]⟩]⟩

/-- C10 counterexample: on an entry that strips to the empty string the code
appends NO period (the Python condition requires the text to be truthy), so
the joined transcript differs from the claimed normalization, which appends a
period to every entry not already ending in terminal punctuation (an empty
string does not end in terminal punctuation). -/
theorem C10_counterexample :
    get_youtube_transcript (some c10list) = some "hello.  world." ∧
    String.intercalate " " ((["hello", " ", "world"] : List String).map normalizeEntryClaim) =
      "hello. . world." ∧
    ("hello.  world." : String) ≠ "hello. . world." := by
  exact ⟨rfl, rfl, by decide⟩

/-- C10 amended: for every found caption track the returned transcript is the
single-space join of the normalized entries, where normalization strips the
entry and appends a period exactly when the stripped text is NONEMPTY and
does not already end in one of the terminal characters; an entry stripping to
the empty string is kept as an empty slot. In particular the track with
entries hello and world yields exactly the transcript hello. world. -/
theorem C10_normalization (tl : TranscriptListT) (tr : CaptionTrack)
    (hsel : selectTranscript tl = some tr) :
    get_youtube_transcript (some tl) =
      some (String.intercalate " " (tr.entries.map normalizeEntry)) ∧
    (∀ e : String, pyStrip e = "" → normalizeEntry e = "") ∧
    (∀ e : String, ∀ c : Char, (pyStrip e).data.getLast? = some c → terminalPunct c = true →
      normalizeEntry e = pyStrip e) ∧
    (∀ e : String, ∀ c : Char, (pyStrip e).data.getLast? = some c → terminalPunct c = false →
      normalizeEntry e = pyStrip e ++ ".") ∧
    get_youtube_transcript (some ⟨[⟨"en", false, ["hello", "world"]⟩]⟩) = some "hello. world." := by
  refine ⟨?_, ?_, ?_, ?_, rfl⟩
  · simp [get_youtube_transcript, hsel]
  · intro e he
    simp [normalizeEntry, he]
  · intro e c hc ht
    simp [normalizeEntry, hc, ht]
  · intro e c hc ht
    simp [normalizeEntry, hc, ht]

/-- Track list for the C10 witness: the hello world example of the spec. -/
def c10wlist : TranscriptListT := ⟨[⟨"en", false, ["hello", "world"]⟩]⟩

/-- Witness for C10 amended: instantiated at the hello world track. -/
theorem C10_witness :
    get_youtube_transcript (some c10wlist) =
      some (String.intercalate " "
        ((⟨"en", false, ["hello", "world"]⟩ : CaptionTrack).entries.map normalizeEntry)) ∧
    (∀ e : String, pyStrip e = "" → normalizeEntry e = "") ∧
    (∀ e : String, ∀ c : Char, (pyStrip e).data.getLast? = some c → terminalPunct c = true →
      normalizeEntry e = pyStrip e) ∧
    (∀ e : String, ∀ c : Char, (pyStrip e).data.getLast? = some c → terminalPunct c = false →
      normalizeEntry e = pyStrip e ++ ".") ∧
    get_youtube_transcript (some ⟨[⟨"en", false, ["hello", "world"]⟩]⟩) = some "hello. world." :=
  C10_normalization c10wlist ⟨"en", false, ["hello", "world"]⟩ rfl

/-- The character class of the id captures in patterns 1 and 3 of
extract_video_id (src/youtube_utils.py lines 15-19): any character other
than ampersand, question mark and slash. -/
def goodIdChar (c : Char) : Bool := !(c == '&' || c == '?' || c == '/')

/-- First alternative of pattern 1: the literal youtube.com/watch?v=. -/
def lit1a : List Char :=
  ['y', 'o', 'u', 't', 'u', 'b', 'e', '.', 'c', 'o', 'm', '/', 'w', 'a', 't', 'c', 'h', '?', 'v', '=']

/-- Second alternative of pattern 1: the literal youtu.be/. -/
def lit1b : List Char := ['y', 'o', 'u', 't', 'u', '.', 'b', 'e', '/']

/-- Third alternative of pattern 1: the literal youtube.com/embed/. -/
def lit1c : List Char :=
  ['y', 'o', 'u', 't', 'u', 'b', 'e', '.', 'c', 'o', 'm', '/', 'e', 'm', 'b', 'e', 'd', '/']

/-- The first seven characters of patterns 2 and 3; the dot of youtube.com is
NOT escaped there, so the regex accepts any character after these seven. -/
def hdr7 : List Char := ['y', 'o', 'u', 't', 'u', 'b', 'e']

/-- The part of pattern 2 after the unescaped dot: com/watch followed by an
escaped question mark. -/
def hdrWatch : List Char := ['c', 'o', 'm', '/', 'w', 'a', 't', 'c', 'h', '?']

/-- The part of pattern 3 after the unescaped dot: com/shorts/. -/
def hdrShorts : List Char := ['c', 'o', 'm', '/', 's', 'h', 'o', 'r', 't', 's', '/']

/-- Option fallback used by the matchers (first alternative wins). -/
def oElse : Option (List Char) → (Unit → Option (List Char)) → Option (List Char)
  | some x, _ => some x
  | none, b => b ()

/-- Greedy nonempty capture of id characters. -/
def capGood (l : List Char) : Option (List Char) :=
  if l.takeWhile goodIdChar = [] then none else some (l.takeWhile goodIdChar)

/-- Match of pattern 1 anchored at the current position: one of the three
escaped literals followed by a nonempty run of id characters; alternatives
are tried in order, as the regex engine does. -/
def matchP1At (l : List Char) : Option (List Char) :=
  oElse (if lit1a.isPrefixOf l then capGood (l.drop lit1a.length) else none) (fun _ =>
    oElse (if lit1b.isPrefixOf l then capGood (l.drop lit1b.length) else none) (fun _ =>
      if lit1c.isPrefixOf l then capGood (l.drop lit1c.length) else none))

/-- Leftmost search of pattern 1 (re.search semantics). -/
def searchP1 : List Char → Option (List Char)
  | [] => none
  | x :: rest => oElse (matchP1At (x :: rest)) (fun _ => searchP1 rest)

/-- The greedy suffix of pattern 2: dot-star (which cannot cross a newline),
the literal v=, and a nonempty capture of non-ampersand characters. Greedy
means the LATEST viable v= wins; an unviable later occurrence backtracks to
an earlier one. -/
def matchTailP2 : List Char → Option (List Char)
  | [] => none
  | c :: rest =>
    oElse (if c = '\n' then none else matchTailP2 rest) (fun _ =>
      if c = 'v' then
        match rest with
        | '=' :: r2 =>
          if r2.takeWhile (fun x => !(x == '&')) = [] then none
          else some (r2.takeWhile (fun x => !(x == '&')))
        | _ => none
      else none)

/-- Match of pattern 2 anchored at the current position: youtube, any
non-newline character, com/watch?, then the greedy tail. -/
def matchP2At (l : List Char) : Option (List Char) :=
  if hdr7.isPrefixOf l then
    match l.drop 7 with
    | [] => none
    | c :: rest =>
      if c = '\n' then none
      else if hdrWatch.isPrefixOf rest then matchTailP2 (rest.drop 10) else none
  else none

/-- Leftmost search of pattern 2. -/
def searchP2 : List Char → Option (List Char)
  | [] => none
  | x :: rest => oElse (matchP2At (x :: rest)) (fun _ => searchP2 rest)

/-- Match of pattern 3 anchored at the current position: youtube, any
non-newline character, com/shorts/, then a nonempty capture of id
characters. -/
def matchP3At (l : List Char) : Option (List Char) :=
  if hdr7.isPrefixOf l then
    match l.drop 7 with
    | [] => none
    | c :: rest =>
      if c = '\n' then none
      else if hdrShorts.isPrefixOf rest then capGood (rest.drop 11) else none
  else none

/-- Leftmost search of pattern 3. -/
def searchP3 : List Char → Option (List Char)
  | [] => none
  | x :: rest => oElse (matchP3At (x :: rest)) (fun _ => searchP3 rest)

/-- Model of extract_video_id (src/youtube_utils.py lines 12-25): the three
patterns are tried over the whole string in order; the first match yields the
captured group, otherwise a ValueError (invalid YouTube URL) is raised. -/
def extract_video_id (url : String) : Except String String :=
  match searchP1 url.data with
  | some cap => .ok (String.mk cap)
  | none =>
    match searchP2 url.data with
    | some cap => .ok (String.mk cap)
    | none =>
      match searchP3 url.data with
      | some cap => .ok (String.mk cap)
      | none => .error "Invalid YouTube URL"

/-- The marker of the shorts URL shape with its literal dot. -/
def shortsMarker : List Char :=
  ['y', 'o', 'u', 't', 'u', 'b', 'e', '.', 'c', 'o', 'm', '/', 's', 'h', 'o', 'r', 't', 's', '/']

/-- Modelled from the claim wording of C5: a URL matches one of the known
YouTube URL shapes when it contains one of the four literal markers
youtube.com/watch?v=, youtu.be/, youtube.com/embed/ or youtube.com/shorts/. -/
def matchesKnownShape (url : String) : Bool :=
  [lit1a, lit1b, lit1c, shortsMarker].any (fun k => decide (k <:+: url.data))

/-- C5 counterexample: the string youtubeXcom/shorts/abc matches none of the
known YouTube URL shapes, yet extract_video_id accepts it and returns abc,
because the dot of youtube.com is not escaped in the shorts pattern and
matches the letter X. Under the claim this string should fail with the
invalid-reference error. -/
theorem C5_counterexample :
    matchesKnownShape "youtubeXcom/shorts/abc" = false ∧
    extract_video_id "youtubeXcom/shorts/abc" = .ok "abc" := by
  exact ⟨by decide, rfl⟩

/-- Auxiliary: unfolding equation of searchP1 at a cons cell. -/
theorem searchP1_cons (x : Char) (l : List Char) :
    searchP1 (x :: l) = oElse (matchP1At (x :: l)) (fun _ => searchP1 l) := rfl

/-- Auxiliary: unfolding equation of searchP2 at a cons cell. -/
theorem searchP2_cons (x : Char) (l : List Char) :
    searchP2 (x :: l) = oElse (matchP2At (x :: l)) (fun _ => searchP2 l) := rfl

/-- Auxiliary: unfolding equation of searchP3 at a cons cell. -/
theorem searchP3_cons (x : Char) (l : List Char) :
    searchP3 (x :: l) = oElse (matchP3At (x :: l)) (fun _ => searchP3 l) := rfl

/-- Auxiliary: pattern 1 cannot match at a position that does not start with
the letter y. -/
theorem matchP1At_ny (x : Char) (l : List Char) (hx : x ≠ 'y') : matchP1At (x :: l) = none := by
  have hy : ('y' == x) = false := beq_eq_false_iff_ne.mpr (Ne.symm hx)
  simp [matchP1At, lit1a, lit1b, lit1c, List.isPrefixOf, hy, oElse]

/-- Auxiliary: pattern 2 cannot match at a position that does not start with
the letter y. -/
theorem matchP2At_ny (x : Char) (l : List Char) (hx : x ≠ 'y') : matchP2At (x :: l) = none := by
  have hy : ('y' == x) = false := beq_eq_false_iff_ne.mpr (Ne.symm hx)
  simp [matchP2At, hdr7, List.isPrefixOf, hy]

/-- Auxiliary: pattern 3 cannot match at a position that does not start with
the letter y. -/
theorem matchP3At_ny (x : Char) (l : List Char) (hx : x ≠ 'y') : matchP3At (x :: l) = none := by
  have hy : ('y' == x) = false := beq_eq_false_iff_ne.mpr (Ne.symm hx)
  simp [matchP3At, hdr7, List.isPrefixOf, hy]

/-- Auxiliary: scanning skips over a stretch of characters containing no y
without any pattern matching there. -/
theorem scan_skip (pre : List Char) (h : ∀ x ∈ pre, x ≠ 'y') (l : List Char) :
    searchP1 (pre ++ l) = searchP1 l ∧ searchP2 (pre ++ l) = searchP2 l ∧
    searchP3 (pre ++ l) = searchP3 l := by
  induction pre with
  | nil => exact ⟨rfl, rfl, rfl⟩
  | cons x rest ih =>
    have hx : x ≠ 'y' := h x (List.mem_cons_self _ _)
    have ihh := ih (fun y hy => h y (List.mem_cons_of_mem _ hy))
    simp only [List.cons_append, searchP1_cons, searchP2_cons, searchP3_cons,
      matchP1At_ny x _ hx, matchP2At_ny x _ hx, matchP3At_ny x _ hx, oElse]
    exact ihh

/-- Auxiliary: the greedy capture takes a whole run of good characters. -/
theorem capGood_all (cs : List Char) (hne : cs ≠ []) (hall : ∀ c ∈ cs, goodIdChar c = true) :
    capGood cs = some cs := by
  have h1 : cs.takeWhile goodIdChar = cs := List.takeWhile_eq_self_iff.mpr hall
  simp [capGood, h1, hne]

/-- Auxiliary: a successful boolean prefix test makes the elements of the
prefix elements of the list. -/
theorem prefix_mem {lit l : List Char} (h : lit.isPrefixOf l = true) : ∀ x ∈ lit, x ∈ l :=
  fun x hx => (List.isPrefixOf_iff_prefix.mp h).subset hx

/-- Auxiliary: pattern 1 never matches inside a run of id characters: each
of its alternatives contains a slash, which the id character class
excludes. -/
theorem searchP1_good_none (cs : List Char) (hall : ∀ c ∈ cs, goodIdChar c = true) :
    searchP1 cs = none := by
  induction cs with
  | nil => rfl
  | cons x rest ih =>
    have hall2 : ∀ c ∈ rest, goodIdChar c = true :=
      fun c hc => hall c (List.mem_cons_of_mem _ hc)
    have hm : matchP1At (x :: rest) = none := by
      have ha : lit1a.isPrefixOf (x :: rest) = false := by
        cases hp : lit1a.isPrefixOf (x :: rest)
        · rfl
        · exact absurd (hall '/' (prefix_mem hp '/' (by decide))) (by decide)
      have hb : lit1b.isPrefixOf (x :: rest) = false := by
        cases hp : lit1b.isPrefixOf (x :: rest)
        · rfl
        · exact absurd (hall '/' (prefix_mem hp '/' (by decide))) (by decide)
      have hc : lit1c.isPrefixOf (x :: rest) = false := by
        cases hp : lit1c.isPrefixOf (x :: rest)
        · rfl
        · exact absurd (hall '/' (prefix_mem hp '/' (by decide))) (by decide)
      simp [matchP1At, ha, hb, hc, oElse]
    rw [searchP1_cons, hm]
    simp only [oElse]
    exact ih hall2

/-- Auxiliary: the sub-list reached after the wildcard position of patterns
2 and 3 consists of elements of the scanned list. -/
theorem drop7_tail_subset (x : Char) (rest c2 : List Char) (c : Char)
    (hd : (x :: rest).drop 7 = c :: c2) : ∀ a ∈ c2, a ∈ x :: rest := by
  intro a ha
  exact List.drop_subset 7 (x :: rest) (by rw [hd]; exact List.mem_cons_of_mem _ ha)

/-- Auxiliary: pattern 2 never matches inside a run of id characters (its
com/watch part contains a slash). -/
theorem searchP2_good_none (cs : List Char) (hall : ∀ c ∈ cs, goodIdChar c = true) :
    searchP2 cs = none := by
  induction cs with
  | nil => rfl
  | cons x rest ih =>
    have hall2 : ∀ c ∈ rest, goodIdChar c = true :=
      fun c hc => hall c (List.mem_cons_of_mem _ hc)
    have hm : matchP2At (x :: rest) = none := by
      cases hp : hdr7.isPrefixOf (x :: rest) with
      | false => simp [matchP2At, hp]
      | true =>
        cases hd : (x :: rest).drop 7 with
        | nil => simp [matchP2At, hp, hd]
        | cons c c2 =>
          by_cases hcn : c = '\n'
          · simp [matchP2At, hp, hd, hcn]
          · have hw : hdrWatch.isPrefixOf c2 = false := by
              cases hq : hdrWatch.isPrefixOf c2
              · rfl
              · have hmem : '/' ∈ x :: rest :=
                  drop7_tail_subset x rest c2 c hd '/' (prefix_mem hq '/' (by decide))
                exact absurd (hall '/' hmem) (by decide)
            simp [matchP2At, hp, hd, hcn, hw]
    rw [searchP2_cons, hm]
    simp only [oElse]
    exact ih hall2

/-- Auxiliary: pattern 3 never matches inside a run of id characters (its
com/shorts part contains a slash). -/
theorem searchP3_good_none (cs : List Char) (hall : ∀ c ∈ cs, goodIdChar c = true) :
    searchP3 cs = none := by
  induction cs with
  | nil => rfl
  | cons x rest ih =>
    have hall2 : ∀ c ∈ rest, goodIdChar c = true :=
      fun c hc => hall c (List.mem_cons_of_mem _ hc)
    have hm : matchP3At (x :: rest) = none := by
      cases hp : hdr7.isPrefixOf (x :: rest) with
      | false => simp [matchP3At, hp]
      | true =>
        cases hd : (x :: rest).drop 7 with
        | nil => simp [matchP3At, hp, hd]
        | cons c c2 =>
          by_cases hcn : c = '\n'
          · simp [matchP3At, hp, hd, hcn]
          · have hw : hdrShorts.isPrefixOf c2 = false := by
              cases hq : hdrShorts.isPrefixOf c2
              · rfl
              · have hmem : '/' ∈ x :: rest :=
                  drop7_tail_subset x rest c2 c hd '/' (prefix_mem hq '/' (by decide))
                exact absurd (hall '/' hmem) (by decide)
            simp [matchP3At, hp, hd, hcn, hw]
    rw [searchP3_cons, hm]
    simp only [oElse]
    exact ih hall2

/-- The five-character stem youtu shared by every literal part of the three
patterns. -/
def yout5 : List Char := ['y', 'o', 'u', 't', 'u']

/-- Auxiliary: a successful pattern-1 search means the string contains the
stem youtu. -/
theorem searchP1_stem : ∀ (l cap : List Char), searchP1 l = some cap → yout5 <:+: l := by
  intro l
  induction l with
  | nil => intro cap h; simp [searchP1] at h
  | cons x rest ih =>
    intro cap h
    cases hm : matchP1At (x :: rest) with
    | some c =>
      have hy : yout5 <+: (x :: rest) := by
        cases ha : lit1a.isPrefixOf (x :: rest) with
        | true => exact (show yout5 <+: lit1a by decide).trans (List.isPrefixOf_iff_prefix.mp ha)
        | false =>
          cases hb : lit1b.isPrefixOf (x :: rest) with
          | true => exact (show yout5 <+: lit1b by decide).trans (List.isPrefixOf_iff_prefix.mp hb)
          | false =>
            cases hc : lit1c.isPrefixOf (x :: rest) with
            | true =>
              exact (show yout5 <+: lit1c by decide).trans (List.isPrefixOf_iff_prefix.mp hc)
            | false =>
              exfalso
              simp [matchP1At, ha, hb, hc, oElse] at hm
      exact hy.isInfix
    | none =>
      rw [searchP1_cons, hm] at h
      simp only [oElse] at h
      obtain ⟨s, t, hst⟩ := ih cap h
      exact ⟨x :: s, t, by rw [← hst]; rfl⟩

/-- Auxiliary: a successful pattern-2 search means the string contains the
stem youtu. -/
theorem searchP2_stem : ∀ (l cap : List Char), searchP2 l = some cap → yout5 <:+: l := by
  intro l
  induction l with
  | nil => intro cap h; simp [searchP2] at h
  | cons x rest ih =>
    intro cap h
    cases hm : matchP2At (x :: rest) with
    | some c =>
      have hy : yout5 <+: (x :: rest) := by
        cases hp : hdr7.isPrefixOf (x :: rest) with
        | true => exact (show yout5 <+: hdr7 by decide).trans (List.isPrefixOf_iff_prefix.mp hp)
        | false =>
          exfalso
          simp [matchP2At, hp] at hm
      exact hy.isInfix
    | none =>
      rw [searchP2_cons, hm] at h
      simp only [oElse] at h
      obtain ⟨s, t, hst⟩ := ih cap h
      exact ⟨x :: s, t, by rw [← hst]; rfl⟩

/-- Auxiliary: a successful pattern-3 search means the string contains the
stem youtu. -/
theorem searchP3_stem : ∀ (l cap : List Char), searchP3 l = some cap → yout5 <:+: l := by
  intro l
  induction l with
  | nil => intro cap h; simp [searchP3] at h
  | cons x rest ih =>
    intro cap h
    cases hm : matchP3At (x :: rest) with
    | some c =>
      have hy : yout5 <+: (x :: rest) := by
        cases hp : hdr7.isPrefixOf (x :: rest) with
        | true => exact (show yout5 <+: hdr7 by decide).trans (List.isPrefixOf_iff_prefix.mp hp)
        | false =>
          exfalso
          simp [matchP3At, hp] at hm
      exact hy.isInfix
    | none =>
      rw [searchP3_cons, hm] at h
      simp only [oElse] at h
      obtain ⟨s, t, hst⟩ := ih cap h
      exact ⟨x :: s, t, by rw [← hst]; rfl⟩

/-- Auxiliary: extraction on a canonical watch URL. -/
theorem extract_youtube_watch (cs : List Char) (hne : cs ≠ [])
    (hall : ∀ c ∈ cs, goodIdChar c = true) :
    extract_video_id ("https://www.youtube.com/watch?v=" ++ String.mk cs) = .ok (String.mk cs) := by
  have hdata : ("https://www.youtube.com/watch?v=" ++ String.mk cs).data =
      "https://www.".data ++ (lit1a ++ cs) := rfl
  have hpre : lit1a.isPrefixOf (lit1a ++ cs) = true := by
    rw [List.isPrefixOf_iff_prefix]
    exact ⟨cs, rfl⟩
  have hm : matchP1At (lit1a ++ cs) = some cs := by
    have hcap := capGood_all cs hne hall
    simp [matchP1At, hpre, oElse, List.drop_left, hcap]
  have hy : searchP1 ("https://www.".data ++ (lit1a ++ cs)) = some cs := by
    rw [(scan_skip "https://www.".data (by decide) (lit1a ++ cs)).1]
    rw [show lit1a ++ cs =
      'y' :: (['o', 'u', 't', 'u', 'b', 'e', '.', 'c', 'o', 'm', '/', 'w', 'a', 't', 'c', 'h',
        '?', 'v', '='] ++ cs) from rfl] at hm ⊢
    rw [searchP1_cons, hm]
    rfl
  simp only [extract_video_id, hdata, hy]

/-- Auxiliary: extraction on a canonical youtu.be URL. -/
theorem extract_youtu_be (cs : List Char) (hne : cs ≠ [])
    (hall : ∀ c ∈ cs, goodIdChar c = true) :
    extract_video_id ("https://youtu.be/" ++ String.mk cs) = .ok (String.mk cs) := by
  have hdata : ("https://youtu.be/" ++ String.mk cs).data =
      "https://".data ++ (lit1b ++ cs) := rfl
  have ha : lit1a.isPrefixOf (lit1b ++ cs) = false := rfl
  have hb : lit1b.isPrefixOf (lit1b ++ cs) = true := by
    rw [List.isPrefixOf_iff_prefix]
    exact ⟨cs, rfl⟩
  have hm : matchP1At (lit1b ++ cs) = some cs := by
    have hcap := capGood_all cs hne hall
    simp [matchP1At, ha, hb, oElse, List.drop_left, hcap]
  have hy : searchP1 ("https://".data ++ (lit1b ++ cs)) = some cs := by
    rw [(scan_skip "https://".data (by decide) (lit1b ++ cs)).1]
    rw [show lit1b ++ cs = 'y' :: (['o', 'u', 't', 'u', '.', 'b', 'e', '/'] ++ cs) from rfl]
      at hm ⊢
    rw [searchP1_cons, hm]
    rfl
  simp only [extract_video_id, hdata, hy]

/-- Auxiliary: extraction on a canonical embed URL. -/
theorem extract_embed (cs : List Char) (hne : cs ≠ [])
    (hall : ∀ c ∈ cs, goodIdChar c = true) :
    extract_video_id ("https://www.youtube.com/embed/" ++ String.mk cs) = .ok (String.mk cs) := by
  have hdata : ("https://www.youtube.com/embed/" ++ String.mk cs).data =
      "https://www.".data ++ (lit1c ++ cs) := rfl
  have ha : lit1a.isPrefixOf (lit1c ++ cs) = false := rfl
  have hb : lit1b.isPrefixOf (lit1c ++ cs) = false := rfl
  have hc : lit1c.isPrefixOf (lit1c ++ cs) = true := by
    rw [List.isPrefixOf_iff_prefix]
    exact ⟨cs, rfl⟩
  have hm : matchP1At (lit1c ++ cs) = some cs := by
    have hcap := capGood_all cs hne hall
    simp [matchP1At, ha, hb, hc, oElse, List.drop_left, hcap]
  have hy : searchP1 ("https://www.".data ++ (lit1c ++ cs)) = some cs := by
    rw [(scan_skip "https://www.".data (by decide) (lit1c ++ cs)).1]
    rw [show lit1c ++ cs =
      'y' :: (['o', 'u', 't', 'u', 'b', 'e', '.', 'c', 'o', 'm', '/', 'e', 'm', 'b', 'e', 'd',
        '/'] ++ cs) from rfl] at hm ⊢
    rw [searchP1_cons, hm]
    rfl
  simp only [extract_video_id, hdata, hy]

/-- Auxiliary: extraction on a canonical shorts URL: patterns 1 and 2 fail
everywhere (also inside the id), and pattern 3 matches at the marker. -/
theorem extract_shorts (cs : List Char) (hne : cs ≠ [])
    (hall : ∀ c ∈ cs, goodIdChar c = true) :
    extract_video_id ("https://www.youtube.com/shorts/" ++ String.mk cs) = .ok (String.mk cs) := by
  have hdata : ("https://www.youtube.com/shorts/" ++ String.mk cs).data =
      "https://www.".data ++ (shortsMarker ++ cs) := rfl
  have hcons : shortsMarker ++ cs =
      'y' :: (['o', 'u', 't', 'u', 'b', 'e', '.', 'c', 'o', 'm', '/', 's', 'h', 'o', 'r', 't',
        's', '/'] ++ cs) := rfl
  have hm1 : matchP1At (shortsMarker ++ cs) = none := rfl
  have hm2 : matchP2At (shortsMarker ++ cs) = none := rfl
  have hp7 : hdr7.isPrefixOf (shortsMarker ++ cs) = true := rfl
  have hd7 : (shortsMarker ++ cs).drop 7 =
      '.' :: (['c', 'o', 'm', '/', 's', 'h', 'o', 'r', 't', 's', '/'] ++ cs) := rfl
  have hpsP : hdrShorts <+:
      ('c' :: 'o' :: 'm' :: '/' :: 's' :: 'h' :: 'o' :: 'r' :: 't' :: 's' :: '/' :: cs) :=
    ⟨cs, rfl⟩
  have hdrop :
      ('c' :: 'o' :: 'm' :: '/' :: 's' :: 'h' :: 'o' :: 'r' :: 't' :: 's' :: '/' :: cs).drop 11 =
        cs := rfl
  have hm3 : matchP3At (shortsMarker ++ cs) = capGood cs := by
    simp [matchP3At, hp7, hd7, hpsP, hdrop]
  have hs1 : searchP1 ("https://www.".data ++ (shortsMarker ++ cs)) = none := by
    rw [(scan_skip "https://www.".data (by decide) (shortsMarker ++ cs)).1]
    rw [hcons] at hm1 ⊢
    rw [searchP1_cons, hm1]
    simp only [oElse]
    rw [(scan_skip ['o', 'u', 't', 'u', 'b', 'e', '.', 'c', 'o', 'm', '/', 's', 'h', 'o', 'r',
      't', 's', '/'] (by decide) cs).1]
    exact searchP1_good_none cs hall
  have hs2 : searchP2 ("https://www.".data ++ (shortsMarker ++ cs)) = none := by
    rw [(scan_skip "https://www.".data (by decide) (shortsMarker ++ cs)).2.1]
    rw [hcons] at hm2 ⊢
    rw [searchP2_cons, hm2]
    simp only [oElse]
    rw [(scan_skip ['o', 'u', 't', 'u', 'b', 'e', '.', 'c', 'o', 'm', '/', 's', 'h', 'o', 'r',
      't', 's', '/'] (by decide) cs).2.1]
    exact searchP2_good_none cs hall
  have hs3 : searchP3 ("https://www.".data ++ (shortsMarker ++ cs)) = some cs := by
    rw [(scan_skip "https://www.".data (by decide) (shortsMarker ++ cs)).2.2]
    rw [hcons] at hm3 ⊢
    rw [searchP3_cons, hm3, capGood_all cs hne hall]
    rfl
  simp only [extract_video_id, hdata, hs1, hs2, hs3]

/-- C5 amended: for the four known URL shapes with a nonempty id drawn from
the id character class (no ampersand, question mark or slash),
extract_video_id returns exactly the embedded id; a string that does not even
contain the stem youtu matches none of the patterns and fails with the
invalid-reference error. The original claim that EVERY string outside the
known shapes fails is false, because the watch-query and shorts patterns
spell the dot of youtube.com as a regex wildcard and therefore also accept
variants such as youtubeXcom/shorts/abc (see the counterexample). -/
theorem C5_amended :
    (∀ cs : List Char, cs ≠ [] → (∀ c ∈ cs, goodIdChar c = true) →
      extract_video_id ("https://www.youtube.com/watch?v=" ++ String.mk cs) =
        .ok (String.mk cs) ∧
      extract_video_id ("https://youtu.be/" ++ String.mk cs) = .ok (String.mk cs) ∧
      extract_video_id ("https://www.youtube.com/embed/" ++ String.mk cs) =
        .ok (String.mk cs) ∧
      extract_video_id ("https://www.youtube.com/shorts/" ++ String.mk cs) =
        .ok (String.mk cs)) ∧
    (∀ url : String, ¬ (yout5 <:+: url.data) →
      extract_video_id url = .error "Invalid YouTube URL") := by
  constructor
  · intro cs hne hall
    exact ⟨extract_youtube_watch cs hne hall, extract_youtu_be cs hne hall,
      extract_embed cs hne hall, extract_shorts cs hne hall⟩
  · intro url h
    cases h1 : searchP1 url.data with
    | some c => exact absurd (searchP1_stem url.data c h1) h
    | none =>
      cases h2 : searchP2 url.data with
      | some c => exact absurd (searchP2_stem url.data c h2) h
      | none =>
        cases h3 : searchP3 url.data with
        | some c => exact absurd (searchP3_stem url.data c h3) h
        | none => simp [extract_video_id, h1, h2, h3]

/-- Witness for C5 amended: the id dQw embedded in each of the four shapes,
and a rejected URL from another video site. -/
theorem C5_witness :
    extract_video_id ("https://www.youtube.com/watch?v=" ++ String.mk ['d', 'Q', 'w']) =
      .ok (String.mk ['d', 'Q', 'w']) ∧
    extract_video_id ("https://youtu.be/" ++ String.mk ['d', 'Q', 'w']) =
      .ok (String.mk ['d', 'Q', 'w']) ∧
    extract_video_id ("https://www.youtube.com/embed/" ++ String.mk ['d', 'Q', 'w']) =
      .ok (String.mk ['d', 'Q', 'w']) ∧
    extract_video_id ("https://www.youtube.com/shorts/" ++ String.mk ['d', 'Q', 'w']) =
      .ok (String.mk ['d', 'Q', 'w']) ∧
    extract_video_id "https://vimeo.com/123" = .error "Invalid YouTube URL" := by
  obtain ⟨h1, h2, h3, h4⟩ := C5_amended.1 ['d', 'Q', 'w'] (by decide) (by decide)
  exact ⟨h1, h2, h3, h4, C5_amended.2 "https://vimeo.com/123" (by decide)⟩

end Yt
